import Mathlib

/-!
Verification of the core logic of the Golf Handicap app (script.js, both
script variants): the validation services, the storage contract over the
LocalStorage slot, and the WHS calculator (score differential and handicap
index).

Conventions of the shallow embedding:
* JavaScript numbers are embedded as exact rationals (`ℚ`); at every concrete
  value used below the double-precision computation agrees with the exact one.
* The function `Math.round` rounds to the nearest integer with halves towards
  `+∞`; on exact inputs this is `⌊q + 1/2⌋`.
* The call `runden.slice().sort((a, b) => a.differential - b.differential)`
  is a stable ascending sort by `differential` (ES2019 requires sort
  stability); insertion sort computes exactly that stable sort.
* Fields absent from a JavaScript object are `none`; `NaN` gets a dedicated
  constructor since `typeof NaN === "number"` holds but `isNaN(NaN)` is true.
* The host's ISO-8601 date parser (`new Date("YYYY-MM-DDT00:00:00")`) accepts
  exactly the real calendar dates: out-of-range months or days yield an
  invalid date.
-/

/-! ## WHS calculator -/

/-- Embedding of `Math.round` on an exact rational: nearest integer, halves
towards `+∞`. -/
def mathRound (q : ℚ) : ℤ := ⌊q + 1/2⌋

/-- Embedding of `Math.round(q * 10) / 10`: round to one decimal place. -/
def rundeAufEineStelle (q : ℚ) : ℚ := (mathRound (q * 10) : ℚ) / 10

/-- A stored round record (all six fields present and well-typed), as produced
by `handleSubmit`. -/
structure Runde where
  id : String
  date : String
  score : ℚ
  courseRating : ℚ
  slope : ℚ
  differential : ℚ
deriving DecidableEq

/-- The order the comparator `(a, b) => a.differential - b.differential`
sorts by. -/
def diffLe (a b : Runde) : Prop := a.differential ≤ b.differential

instance : DecidableRel diffLe := fun a b =>
  inferInstanceAs (Decidable (a.differential ≤ b.differential))

instance : IsTotal Runde diffLe := ⟨fun a b => le_total a.differential b.differential⟩

instance : IsTrans Runde diffLe := ⟨fun _ _ _ h h' => le_trans h h'⟩

/-- Embedding of `runden.slice().sort((a, b) => a.differential - b.differential)`:
the stable ascending sort by differential. -/
def sortiereNachDifferential (runden : List Runde) : List Runde :=
  List.insertionSort diffLe runden

namespace WHSService

/-- Embeds `WHSService.berechneScoreDifferential` (script.js:228-231):
`(CONFIG.CONSTANT_SLOPE / slope) * (score - courseRating)` with
`CONSTANT_SLOPE = 113`, rounded to one decimal. -/
def berechneScoreDifferential (score courseRating slope : ℚ) : ℚ :=
  rundeAufEineStelle (113 / slope * (score - courseRating))

/-- Embeds `WHSService.berechneHandicapIndex` (script.js:238-257): `null` on an
empty array, otherwise slice the first `MAX_ROUNDS_FOR_HANDICAP = 20` rounds,
sort ascending by differential, take the best `min(BEST_ROUNDS_COUNT = 8, length)`,
average via `reduce`, multiply by `WHS_MULTIPLIER = 0.96`, round to one
decimal. -/
def berechneHandicapIndex (runden : List Runde) : Option ℚ :=
  if runden.length = 0 then none
  else
    let letzte20 := runden.take 20
    let sortiert := sortiereNachDifferential letzte20
    let anzahlBeste := min 8 sortiert.length
    let beste := sortiert.take anzahlBeste
    let summe := beste.foldl (fun acc r => acc + r.differential) 0
    let durchschnitt := summe / (anzahlBeste : ℚ)
    some (rundeAufEineStelle (durchschnitt * (96 / 100)))

end WHSService

/-- Embeds `berechneHandicap` of the simplified script variant
(script.js:691-705): `null` when `runden.length < 1`, otherwise the same
slice-20 / sort / best-`min(8, n)` / average / `* 0.96` / round-to-one-decimal
computation with the constants written inline. -/
def berechneHandicap (runden : List Runde) : Option ℚ :=
  if runden.length < 1 then none
  else
    let letzte20 := runden.take 20
    let sortiert := sortiereNachDifferential letzte20
    let anzahl := min 8 sortiert.length
    let beste := sortiert.take anzahl
    let summe := beste.foldl (fun acc r => acc + r.differential) 0
    let durchschnitt := summe / (anzahl : ℚ)
    some (rundeAufEineStelle (durchschnitt * (96 / 100)))

/-! ## Validation service -/

/-- A raw numeric form field after the source's parsing step
(`parseFloat` for strings, `Number` otherwise): the field is empty / `null` /
`undefined`, parses to `NaN` or an infinity, or parses to the finite number
`q`. -/
inductive JSEingabe where
  | fehlt
  | keineZahl
  | zahl (q : ℚ)
deriving DecidableEq

/-- The result object `{valid, error, value}` of the numeric validators. -/
structure ZahlResult where
  valid : Bool
  error : Option String
  value : Option ℚ
deriving DecidableEq

/-- A character the trim of the embedding strips (the ASCII whitespace
characters; JavaScript `trim` additionally strips rarer Unicode space
characters, which never occur in the inputs considered here). -/
def istLeerzeichen (c : Char) : Bool :=
  c == ' ' || c == '\t' || c == '\n' || c == '\r'

/-- Embedding of `String.prototype.trim`. -/
def jsTrim (s : String) : String :=
  String.mk (((s.data.dropWhile istLeerzeichen).reverse.dropWhile istLeerzeichen).reverse)

/-- The regex `/^\d{4}-\d{2}-\d{2}$/` of `validiereDatum`. -/
def istFormatJJJJMMTT (s : String) : Bool :=
  match s.data with
  | [j1, j2, j3, j4, b1, m1, m2, b2, t1, t2] =>
      j1.isDigit && j2.isDigit && j3.isDigit && j4.isDigit && b1 == '-' &&
      m1.isDigit && m2.isDigit && b2 == '-' && t1.isDigit && t2.isDigit
  | _ => false

/-- Numeric value of a digit character. -/
def ziffernWert (c : Char) : ℕ := c.toNat - 48

/-- A calendar date as a `(year, month, day)` triple. -/
structure Kalenderdatum where
  jahr : ℕ
  monat : ℕ
  tag : ℕ
deriving DecidableEq

/-- Reading the year/month/day fields out of a string matching the
`YYYY-MM-DD` regex (the components `new Date` interprets). -/
def parseDatum (s : String) : Kalenderdatum :=
  match s.data with
  | [j1, j2, j3, j4, _, m1, m2, _, t1, t2] =>
      ⟨1000 * ziffernWert j1 + 100 * ziffernWert j2 + 10 * ziffernWert j3 + ziffernWert j4,
        10 * ziffernWert m1 + ziffernWert m2,
        10 * ziffernWert t1 + ziffernWert t2⟩
  | _ => ⟨0, 0, 0⟩

/-- Gregorian leap year. -/
def istSchaltjahr (j : ℕ) : Bool := (j % 4 == 0 && j % 100 != 0) || j % 400 == 0

/-- Days in a month of a given year. -/
def tageImMonat (j m : ℕ) : ℕ :=
  if m = 2 then (if istSchaltjahr j then 29 else 28)
  else if m = 4 ∨ m = 6 ∨ m = 9 ∨ m = 11 then 30
  else 31

/-- Whether `new Date(s + "T00:00:00")` yields a valid date for a string `s`
matching the `YYYY-MM-DD` regex: the host's ISO-8601 parser accepts exactly
the real calendar dates (month `01`–`12`, day within the month's length). -/
def istEchtesDatum (d : Kalenderdatum) : Bool :=
  decide (1 ≤ d.monat) && decide (d.monat ≤ 12) && decide (1 ≤ d.tag) &&
    decide (d.tag ≤ tageImMonat d.jahr d.monat)

/-- Comparison `dateObj > heute` for two local-midnight dates: lexicographic
order on `(year, month, day)`. -/
def datumNach (a b : Kalenderdatum) : Bool :=
  b.jahr < a.jahr || (a.jahr == b.jahr &&
    (b.monat < a.monat || (a.monat == b.monat && b.tag < a.tag)))

/-- The result object of `validiereDatum`. The source returns
`{valid, error}` without a `value` field; reading `.value` on it gives
`undefined`, embedded as `none`. -/
structure DatumResult where
  valid : Bool
  error : Option String
  value : Option String
deriving DecidableEq

namespace ValidationService

/-- Embeds `ValidationService.validiereDatum` (script.js:32-56). `heute` is
the local clock's date, midnight-truncated. -/
def validiereDatum (datum : Option String) (heute : Kalenderdatum) : DatumResult :=
  match datum with
  | none => ⟨false, some "Bitte ein gültiges Datum angeben.", none⟩
  | some s =>
    if s = "" then ⟨false, some "Bitte ein gültiges Datum angeben.", none⟩
    else
      let trimmed := jsTrim s
      if trimmed = "" then ⟨false, some "Bitte ein Datum angeben.", none⟩
      else if !istFormatJJJJMMTT trimmed then
        ⟨false, some "Ungültiges Datumsformat. Bitte YYYY-MM-DD verwenden.", none⟩
      else if !istEchtesDatum (parseDatum trimmed) then
        ⟨false, some "Ungültiges Datum.", none⟩
      else if datumNach (parseDatum trimmed) heute then
        ⟨false, some "Das Datum darf nicht in der Zukunft liegen.", none⟩
      else ⟨true, none, none⟩

/-- Embeds `ValidationService.validiereScore` (script.js:63-78). -/
def validiereScore : JSEingabe → ZahlResult
  | .fehlt => ⟨false, some "Bitte einen Brutto-Score eingeben.", none⟩
  | .keineZahl => ⟨false, some "Brutto-Score muss eine gültige Zahl sein.", none⟩
  | .zahl q =>
    if q < 1 ∨ 200 < q then
      ⟨false, some "Brutto-Score muss zwischen 1 und 200 liegen.", none⟩
    else if q ≠ (⌊q⌋ : ℚ) then
      ⟨false, some "Brutto-Score muss eine ganze Zahl sein.", none⟩
    else ⟨true, none, some q⟩

/-- Embeds `ValidationService.validiereCourseRating` (script.js:85-97). -/
def validiereCourseRating : JSEingabe → ZahlResult
  | .fehlt => ⟨false, some "Bitte ein Course Rating eingeben.", none⟩
  | .keineZahl => ⟨false, some "Course Rating muss eine gültige Zahl sein.", none⟩
  | .zahl q =>
    if q < 50 ∨ 80 < q then
      ⟨false, some "Course Rating muss zwischen 50 und 80 liegen.", none⟩
    else ⟨true, none, some q⟩

/-- Embeds `ValidationService.validiereSlope` (script.js:104-119). -/
def validiereSlope : JSEingabe → ZahlResult
  | .fehlt => ⟨false, some "Bitte ein Slope Rating eingeben.", none⟩
  | .keineZahl => ⟨false, some "Slope Rating muss eine gültige Zahl sein.", none⟩
  | .zahl q =>
    if q < 55 ∨ 155 < q then
      ⟨false, some "Slope Rating muss zwischen 55 und 155 liegen.", none⟩
    else if q ≠ (⌊q⌋ : ℚ) then
      ⟨false, some "Slope Rating muss eine ganze Zahl sein.", none⟩
    else ⟨true, none, some q⟩

end ValidationService

/-! ## Stored rounds and the storage service -/

/-- A JavaScript value found in a field of a persisted object: a number other
than `NaN`, the number `NaN` (of type number, but `isNaN` holds), or a value
of any other type. -/
inductive JSWert where
  | zahl (q : ℚ)
  | nanWert
  | sonst
deriving DecidableEq

/-- A persisted object's relevant fields; `none` means the field is absent
(the `in` operator is false for it). -/
structure RundenObjekt where
  idFeld : Option JSWert
  dateFeld : Option JSWert
  scoreFeld : Option JSWert
  courseRatingFeld : Option JSWert
  slopeFeld : Option JSWert
  differentialFeld : Option JSWert
deriving DecidableEq

/-- An element of a persisted array: either not an object (including `null`),
or an object with its fields. -/
inductive JSRunde where
  | keinObjekt
  | objekt (r : RundenObjekt)
deriving DecidableEq

/-- The result object `{valid, error}` of `validiereRunde`. -/
structure RundeResult where
  valid : Bool
  error : Option String
deriving DecidableEq

namespace ValidationService

/-- Embeds `ValidationService.validiereRunde` (script.js:126-140): requires an
object, the six fields `id`, `date`, `score`, `courseRating`, `slope`,
`differential` present (checked in this order), and a numeric non-`NaN`
differential. -/
def validiereRunde : JSRunde → RundeResult
  | .keinObjekt => ⟨false, some "Ungültiges Runden-Objekt."⟩
  | .objekt r =>
    if r.idFeld.isNone then
      ⟨false, some "Runden-Objekt fehlt erforderliches Feld: id."⟩
    else if r.dateFeld.isNone then
      ⟨false, some "Runden-Objekt fehlt erforderliches Feld: date."⟩
    else if r.scoreFeld.isNone then
      ⟨false, some "Runden-Objekt fehlt erforderliches Feld: score."⟩
    else if r.courseRatingFeld.isNone then
      ⟨false, some "Runden-Objekt fehlt erforderliches Feld: courseRating."⟩
    else if r.slopeFeld.isNone then
      ⟨false, some "Runden-Objekt fehlt erforderliches Feld: slope."⟩
    else if r.differentialFeld.isNone then
      ⟨false, some "Runden-Objekt fehlt erforderliches Feld: differential."⟩
    else
      match r.differentialFeld with
      | some (.zahl _) => ⟨true, none⟩
      | _ => ⟨false, some "Ungültiger Differential-Wert."⟩

end ValidationService

/-- The persisted LocalStorage slot under `CONFIG.STORAGE_KEY`: absent,
unparseable (`JSON.parse` throws), parseable but not an array, or a JSON
array of elements. -/
inductive SpeicherZustand where
  | leer
  | unlesbar
  | keinArray
  | arrayWert (l : List JSRunde)
deriving DecidableEq

/-- The result object `{success, error}` of `speichereRunden`. -/
structure SpeicherResult where
  success : Bool
  error : Option String
deriving DecidableEq

namespace StorageService

/-- Embeds `StorageService.ladeRunden` (script.js:152-176): `[]` when the key
is absent, on a caught `JSON.parse` exception, or on a non-array payload;
otherwise each entry is validated with `validiereRunde` and invalid entries
are skipped. -/
def ladeRunden : SpeicherZustand → List JSRunde
  | .leer => []
  | .unlesbar => []
  | .keinArray => []
  | .arrayWert l => l.filter (fun r => (ValidationService.validiereRunde r).valid)

/-- Embeds `StorageService.speichereRunden` (script.js:183-198): writes
`JSON.stringify(runden)` under the key, reporting a quota error when the
store is full. Parsing the stored JSON back yields the same array of records,
so a successful write leaves the slot holding the array itself. The
`Array.isArray` guard always passes for a `List` input. -/
def speichereRunden (runden : List JSRunde) (quotaVoll : Bool)
    (zustand : SpeicherZustand) : SpeicherZustand × SpeicherResult :=
  if quotaVoll then
    (zustand, ⟨false, some "Speicherplatz voll. Bitte alte Runden löschen."⟩)
  else (.arrayWert runden, ⟨true, none⟩)

end StorageService

/-! ## Specification-side definitions and concrete example data -/

/-- The digit character of `n % 10`. -/
def ziffer (n : ℕ) : Char := Char.ofNat (48 + n % 10)

/-- The canonical `YYYY-MM-DD` rendering of a calendar date (zero-padded).
Used to characterise which strings pass the date validator. -/
def zeigeDatum (d : Kalenderdatum) : String :=
  String.mk [ziffer (d.jahr / 1000), ziffer (d.jahr / 100), ziffer (d.jahr / 10), ziffer d.jahr,
    '-', ziffer (d.monat / 10), ziffer d.monat, '-', ziffer (d.tag / 10), ziffer d.tag]

/-- The WHS sliding-scale table as the specification states it: for `n`
available rounds, the number of best differentials to use and the adjustment
to add. -/
def whsTabelle (n : ℕ) : ℕ × ℚ :=
  if n ≤ 3 then (1, -2)
  else if n ≤ 5 then (1, 0)
  else if n = 6 then (2, -1)
  else if n ≤ 8 then (2, 0)
  else if n ≤ 11 then (3, 0)
  else if n ≤ 14 then (4, 0)
  else if n ≤ 16 then (5, 0)
  else if n ≤ 18 then (6, 0)
  else if n = 19 then (7, 0)
  else (8, 0)

/-- The handicap computation exactly as the specification describes it:
consider the 20 most recent rounds, look up count and adjustment in the
sliding-scale table, average the best `count` differentials, add the
adjustment, round to one decimal. Defined only to compare with the source's
`berechneHandicapIndex`. -/
def spezifikationsHandicapIndex (runden : List Runde) : Option ℚ :=
  if runden.length = 0 then none
  else
    let letzte20 := runden.take 20
    let tabelle := whsTabelle letzte20.length
    let sortiert := sortiereNachDifferential letzte20
    let beste := sortiert.take tabelle.1
    some (rundeAufEineStelle
      ((beste.map (·.differential)).sum / (tabelle.1 : ℚ) + tabelle.2))

/-- A well-formed round with a given differential, used as concrete test
data. -/
def beispielRunde (d : ℚ) : Runde := ⟨"1", "2026-01-01", 90, 72, 113, d⟩

/-- A structurally complete persisted round object. -/
def beispielGueltigeRunde : JSRunde :=
  .objekt ⟨some .sonst, some .sonst, some (.zahl 90), some (.zahl 72), some (.zahl 113),
    some (.zahl 18)⟩

/-- A structurally incomplete persisted round object: the `differential`
field is missing. -/
def beispielKaputteRunde : JSRunde :=
  .objekt ⟨some .sonst, some .sonst, some (.zahl 90), some (.zahl 72), some (.zahl 113), none⟩

/-! ## Helper lemmas about the handicap computation -/

lemma foldl_add_differential (l : List Runde) (a : ℚ) :
    l.foldl (fun acc r => acc + r.differential) a = a + (l.map (·.differential)).sum := by
  induction l generalizing a with
  | nil => simp
  | cons r t ih => simp [List.foldl_cons, ih, add_assoc]

lemma sortiere_perm (l : List Runde) : List.Perm (sortiereNachDifferential l) l :=
  List.perm_insertionSort _ _

lemma sortiere_sorted (l : List Runde) : (sortiereNachDifferential l).Sorted diffLe :=
  List.sorted_insertionSort _ _

lemma sortiere_length (l : List Runde) : (sortiereNachDifferential l).length = l.length :=
  (sortiere_perm l).length_eq

/-- Any two sorted-by-differential permutations of the same list carry the
same sequence of differentials. -/
lemma map_differential_eq_of_sorted {s t : List Runde} (hp : List.Perm s t)
    (hs : s.Sorted diffLe) (ht : t.Sorted diffLe) :
    s.map (·.differential) = t.map (·.differential) := by
  haveI : IsAntisymm ℚ (fun x1 x2 : ℚ => x1 ≤ x2) := ⟨fun _ _ => le_antisymm⟩
  have hs' : (s.map (·.differential)).Pairwise (fun x1 x2 : ℚ => x1 ≤ x2) := by
    rw [List.pairwise_map]; exact hs
  have ht' : (t.map (·.differential)).Pairwise (fun x1 x2 : ℚ => x1 ≤ x2) := by
    rw [List.pairwise_map]; exact ht
  exact List.eq_of_perm_of_sorted (hp.map _) hs' ht'

/-- Closed form of the source's handicap computation on a non-empty list. -/
lemma berechneHandicapIndex_formel (runden : List Runde) (h : runden ≠ []) :
    WHSService.berechneHandicapIndex runden =
      some (rundeAufEineStelle
        ((((sortiereNachDifferential (runden.take 20)).take
            (min 8 (runden.take 20).length)).map (·.differential)).sum /
          (min 8 (runden.take 20).length : ℚ) * (96 / 100))) := by
  have hne : ¬ runden.length = 0 := by simpa [List.length_eq_zero] using h
  simp [WHSService.berechneHandicapIndex, hne, foldl_add_differential, sortiere_length]

/-! ## Claim C1 -/

/-- C1, counterexample: the source's handicap computation disagrees with the
sliding-scale-table computation the claim describes. For a single round with
differential 10 the code yields `0.96 * 10 = 9.6` while the table (use 1,
adjustment −2.0) yields `8.0`. -/
theorem berechneHandicapIndex_gegen_spezifikation :
    WHSService.berechneHandicapIndex [beispielRunde 10] = some (48/5) ∧
    spezifikationsHandicapIndex [beispielRunde 10] = some 8 ∧
    WHSService.berechneHandicapIndex [beispielRunde 10] ≠
      spezifikationsHandicapIndex [beispielRunde 10] := by
  refine ⟨?_, ?_, ?_⟩ <;>
    norm_num [WHSService.berechneHandicapIndex, spezifikationsHandicapIndex,
      sortiereNachDifferential, whsTabelle, rundeAufEineStelle, mathRound, beispielRunde,
      List.foldl]

/-- C1 (amended): for every non-empty list of rounds (newest first), the
handicap index considers at most the 20 most recent rounds, sorts them
ascending by differential (any sorted permutation yields the same value),
averages the first `min(8, count)` differentials, multiplies by 0.96 — with
no sliding-scale count/adjustment table — and rounds the result to one
decimal place. -/
theorem berechneHandicapIndex_charakterisierung (runden s : List Runde)
    (h : runden ≠ []) (hperm : List.Perm s (runden.take 20)) (hsort : s.Sorted diffLe) :
    WHSService.berechneHandicapIndex runden =
      some (rundeAufEineStelle
        (((s.take (min 8 (runden.take 20).length)).map (·.differential)).sum /
          (min 8 (runden.take 20).length : ℚ) * (96 / 100))) := by
  rw [berechneHandicapIndex_formel runden h]
  have hmap : s.map (·.differential) =
      (sortiereNachDifferential (runden.take 20)).map (·.differential) :=
    map_differential_eq_of_sorted (hperm.trans (sortiere_perm _).symm) hsort (sortiere_sorted _)
  rw [List.map_take, List.map_take, hmap]

/-- C1, witness: the characterisation applied to a concrete two-round list
and its concrete sorted permutation. -/
theorem berechneHandicapIndex_charakterisierung_zeuge :
    WHSService.berechneHandicapIndex [beispielRunde 12, beispielRunde 7] =
      some (rundeAufEineStelle
        ((([beispielRunde 7, beispielRunde 12].take
            (min 8 ([beispielRunde 12, beispielRunde 7].take 20).length)).map
              (·.differential)).sum /
          (min 8 ([beispielRunde 12, beispielRunde 7].take 20).length : ℚ) * (96 / 100))) :=
  berechneHandicapIndex_charakterisierung [beispielRunde 12, beispielRunde 7]
    [beispielRunde 7, beispielRunde 12] (by decide) (by decide) (by decide)

/-! ## Claim C2 -/

/-- C2, counterexample: for five rounds all with differential 10 the claim
predicts the single lowest differential, 10, but the source computes
`0.96 * 10 = 9.6`. -/
theorem berechneHandicapIndex_fuenf_gegenbeispiel :
    WHSService.berechneHandicapIndex
      [beispielRunde 10, beispielRunde 10, beispielRunde 10, beispielRunde 10,
        beispielRunde 10] = some (48/5) ∧ (48/5 : ℚ) ≠ 10 := by
  constructor
  · norm_num [WHSService.berechneHandicapIndex, sortiereNachDifferential,
      rundeAufEineStelle, mathRound, beispielRunde, List.foldl]
  · norm_num

/-- C2 (amended): for every list of exactly 5 rounds the handicap index is
0.96 times the average of all 5 differentials, rounded to one decimal; for
every list of exactly 6 rounds it is 0.96 times the average of all 6
differentials, rounded to one decimal. There is no best-1 / best-2 selection
and no adjustment. -/
theorem berechneHandicapIndex_fuenf_sechs (runden : List Runde) :
    (runden.length = 5 → WHSService.berechneHandicapIndex runden =
      some (rundeAufEineStelle ((runden.map (·.differential)).sum / 5 * (96 / 100)))) ∧
    (runden.length = 6 → WHSService.berechneHandicapIndex runden =
      some (rundeAufEineStelle ((runden.map (·.differential)).sum / 6 * (96 / 100)))) := by
  constructor <;> intro hl
  all_goals {
    have h : runden ≠ [] := by intro e; rw [e] at hl; simp at hl
    have ht : runden.take 20 = runden := List.take_of_length_le (by omega)
    rw [berechneHandicapIndex_formel runden h, ht, hl]
    have hlen : (sortiereNachDifferential runden).length = runden.length := sortiere_length runden
    rw [List.take_of_length_le (by omega)]
    have hsum : ((sortiereNachDifferential runden).map (·.differential)).sum =
        (runden.map (·.differential)).sum := ((sortiere_perm runden).map _).sum_eq
    rw [hsum]
    norm_num
  }

/-- C2, witness: the five-round case applied to a concrete list. -/
theorem berechneHandicapIndex_fuenf_sechs_zeuge :
    WHSService.berechneHandicapIndex
      [beispielRunde 8, beispielRunde 11, beispielRunde 9, beispielRunde 14,
        beispielRunde 12] =
      some (rundeAufEineStelle
        (([beispielRunde 8, beispielRunde 11, beispielRunde 9, beispielRunde 14,
            beispielRunde 12].map (·.differential)).sum / 5 * (96 / 100))) :=
  (berechneHandicapIndex_fuenf_sechs
    [beispielRunde 8, beispielRunde 11, beispielRunde 9, beispielRunde 14,
      beispielRunde 12]).1 rfl

/-! ## Claim C3 -/

/-- C3 (confirmed): for all inputs with positive slope, the score
differential is a multiple of one tenth, lies within a half-tenth of
`(113/slope) * (score − courseRating)` with the upper bound attained (halves
round up), and the two quoted values evaluate to 18.0 and 28.3. -/
theorem berechneScoreDifferential_korrekt (score cr slope : ℚ) (_hslope : 0 < slope) :
    (∃ n : ℤ, WHSService.berechneScoreDifferential score cr slope = (n : ℚ) / 10) ∧
    113 / slope * (score - cr) - 1/20 < WHSService.berechneScoreDifferential score cr slope ∧
    WHSService.berechneScoreDifferential score cr slope ≤ 113 / slope * (score - cr) + 1/20 ∧
    WHSService.berechneScoreDifferential 90 72 113 = 18 ∧
    WHSService.berechneScoreDifferential 100 70 120 = 283/10 := by
  refine ⟨⟨mathRound (113 / slope * (score - cr) * 10), rfl⟩, ?_, ?_, ?_, ?_⟩
  · have h1 : (113 / slope * (score - cr) * 10 + 1/2) - 1 <
        ((⌊113 / slope * (score - cr) * 10 + 1/2⌋ : ℤ) : ℚ) := Int.sub_one_lt_floor _
    show 113 / slope * (score - cr) - 1/20 <
      ((⌊113 / slope * (score - cr) * 10 + 1/2⌋ : ℤ) : ℚ) / 10
    linarith
  · have h2 : ((⌊113 / slope * (score - cr) * 10 + 1/2⌋ : ℤ) : ℚ) ≤
        113 / slope * (score - cr) * 10 + 1/2 := Int.floor_le _
    show ((⌊113 / slope * (score - cr) * 10 + 1/2⌋ : ℤ) : ℚ) / 10 ≤
      113 / slope * (score - cr) + 1/20
    linarith
  · norm_num [WHSService.berechneScoreDifferential, rundeAufEineStelle, mathRound]
  · norm_num [WHSService.berechneScoreDifferential, rundeAufEineStelle, mathRound]

/-- C3, witness: the statement instantiated at score 100, course rating 70,
slope 120. -/
theorem berechneScoreDifferential_korrekt_zeuge :
    (∃ n : ℤ, WHSService.berechneScoreDifferential 100 70 120 = (n : ℚ) / 10) ∧
    113 / 120 * (100 - 70) - 1/20 < WHSService.berechneScoreDifferential 100 70 120 ∧
    WHSService.berechneScoreDifferential 100 70 120 ≤ 113 / 120 * (100 - 70) + 1/20 ∧
    WHSService.berechneScoreDifferential 90 72 113 = 18 ∧
    WHSService.berechneScoreDifferential 100 70 120 = 283/10 :=
  berechneScoreDifferential_korrekt 100 70 120 (by norm_num)

/-! ## Claim C4 -/

/-- C4 (confirmed): the handicap index of an empty list of rounds is the
explicit no-value result `none` (the source's `null`), not the number
zero. -/
theorem berechneHandicapIndex_leer : WHSService.berechneHandicapIndex [] = none := rfl

/-! ## Claim C5 -/

/-- C5 (confirmed): the score validator accepts exactly the parsed integers
in `[1, 200]`, the course-rating validator exactly the parsed numbers in
`[50, 80]`, the slope validator exactly the parsed integers in `[55, 155]`,
and on success each returns the parsed numeric value unchanged (the
embedding is pure, so no input is mutated). -/
theorem validiereZahlen_korrekt (i : JSEingabe) :
    ((ValidationService.validiereScore i).valid = true ↔
      ∃ n : ℤ, i = .zahl (n : ℚ) ∧ 1 ≤ n ∧ n ≤ 200) ∧
    ((ValidationService.validiereCourseRating i).valid = true ↔
      ∃ q : ℚ, i = .zahl q ∧ 50 ≤ q ∧ q ≤ 80) ∧
    ((ValidationService.validiereSlope i).valid = true ↔
      ∃ n : ℤ, i = .zahl (n : ℚ) ∧ 55 ≤ n ∧ n ≤ 155) ∧
    (∀ q : ℚ, i = .zahl q →
      ((ValidationService.validiereScore i).valid = true →
        (ValidationService.validiereScore i).value = some q) ∧
      ((ValidationService.validiereCourseRating i).valid = true →
        (ValidationService.validiereCourseRating i).value = some q) ∧
      ((ValidationService.validiereSlope i).valid = true →
        (ValidationService.validiereSlope i).value = some q)) := by
  cases i with
  | fehlt => simp [ValidationService.validiereScore, ValidationService.validiereCourseRating,
      ValidationService.validiereSlope]
  | keineZahl => simp [ValidationService.validiereScore, ValidationService.validiereCourseRating,
      ValidationService.validiereSlope]
  | zahl q =>
    refine ⟨?_, ?_, ?_, ?_⟩
    · simp only [ValidationService.validiereScore]
      split_ifs with h1 h2
      · refine iff_of_false (by simp) ?_
        rintro ⟨n, hn, hn1, hn2⟩
        rw [JSEingabe.zahl.injEq] at hn
        subst hn
        have c1 : (1:ℚ) ≤ (n:ℚ) := by exact_mod_cast hn1
        have c2 : ((n:ℚ)) ≤ 200 := by exact_mod_cast hn2
        rcases h1 with h | h <;> linarith
      · refine iff_of_false (by simp) ?_
        rintro ⟨n, hn, hn1, hn2⟩
        rw [JSEingabe.zahl.injEq] at hn
        subst hn
        exact h2 (by rw [Int.floor_intCast])
      · refine iff_of_true rfl ?_
        push_neg at h1 h2
        refine ⟨⌊q⌋, by rw [← h2], ?_, ?_⟩
        · have := h1.1
          rw [h2] at this
          exact_mod_cast this
        · have := h1.2
          rw [h2] at this
          exact_mod_cast this
    · simp only [ValidationService.validiereCourseRating]
      split_ifs with h1
      · refine iff_of_false (by simp) ?_
        rintro ⟨p, hp, hp1, hp2⟩
        rw [JSEingabe.zahl.injEq] at hp
        subst hp
        rcases h1 with h | h <;> linarith
      · refine iff_of_true rfl ?_
        push_neg at h1
        exact ⟨q, rfl, h1.1, h1.2⟩
    · simp only [ValidationService.validiereSlope]
      split_ifs with h1 h2
      · refine iff_of_false (by simp) ?_
        rintro ⟨n, hn, hn1, hn2⟩
        rw [JSEingabe.zahl.injEq] at hn
        subst hn
        have c1 : (55:ℚ) ≤ (n:ℚ) := by exact_mod_cast hn1
        have c2 : ((n:ℚ)) ≤ 155 := by exact_mod_cast hn2
        rcases h1 with h | h <;> linarith
      · refine iff_of_false (by simp) ?_
        rintro ⟨n, hn, hn1, hn2⟩
        rw [JSEingabe.zahl.injEq] at hn
        subst hn
        exact h2 (by rw [Int.floor_intCast])
      · refine iff_of_true rfl ?_
        push_neg at h1 h2
        refine ⟨⌊q⌋, by rw [← h2], ?_, ?_⟩
        · have := h1.1
          rw [h2] at this
          exact_mod_cast this
        · have := h1.2
          rw [h2] at this
          exact_mod_cast this
    · rintro p hp
      rw [JSEingabe.zahl.injEq] at hp
      subst hp
      refine ⟨?_, ?_, ?_⟩
      · simp only [ValidationService.validiereScore]
        split_ifs <;> simp
      · simp only [ValidationService.validiereCourseRating]
        split_ifs <;> simp
      · simp only [ValidationService.validiereSlope]
        split_ifs <;> simp

/-- C5, witness: the score 100 is accepted. -/
theorem validiereZahlen_korrekt_zeuge :
    (ValidationService.validiereScore (.zahl 100)).valid = true :=
  (validiereZahlen_korrekt (.zahl 100)).1.mpr ⟨100, by norm_num, by norm_num, by norm_num⟩

/-! ## Claim C6: helper lemmas about digits and date strings -/

lemma isDigit_toNat_bounds {c : Char} (h : c.isDigit = true) :
    48 ≤ c.toNat ∧ c.toNat ≤ 57 := by
  simp [Char.isDigit] at h
  exact ⟨h.1, h.2⟩

lemma ziffer_ziffernWert {c : Char} (h : c.isDigit = true) : ziffer (ziffernWert c) = c := by
  obtain ⟨h1, h2⟩ := isDigit_toNat_bounds h
  have e : 48 + (c.toNat - 48) % 10 = c.toNat := by omega
  rw [ziffer, ziffernWert, e, Char.ofNat_toNat]

lemma ziffernWert_le {c : Char} (h : c.isDigit = true) : ziffernWert c ≤ 9 := by
  obtain ⟨h1, h2⟩ := isDigit_toNat_bounds h
  rw [ziffernWert]
  omega

lemma ziffer_isDigit (n : ℕ) : (ziffer n).isDigit = true := by
  rw [ziffer]
  have hk : n % 10 < 10 := Nat.mod_lt _ (by norm_num)
  generalize n % 10 = k at hk
  interval_cases k <;> decide

lemma ziffernWert_ziffer (n : ℕ) : ziffernWert (ziffer n) = n % 10 := by
  rw [ziffer]
  have hk : n % 10 < 10 := Nat.mod_lt _ (by norm_num)
  generalize n % 10 = k at *
  interval_cases k <;> decide

lemma ziffer_congr {x y : ℕ} (h : x % 10 = y % 10) : ziffer x = ziffer y := by
  rw [ziffer, ziffer, h]

lemma istFormat_zeigeDatum (d : Kalenderdatum) : istFormatJJJJMMTT (zeigeDatum d) = true := by
  simp [istFormatJJJJMMTT, zeigeDatum, ziffer_isDigit]

lemma parseDatum_zeigeDatum (d : Kalenderdatum) (hj : d.jahr ≤ 9999) (hm : d.monat ≤ 99)
    (ht : d.tag ≤ 99) : parseDatum (zeigeDatum d) = d := by
  obtain ⟨j, m, t⟩ := d
  simp only [parseDatum, zeigeDatum, ziffernWert_ziffer]
  simp only [Kalenderdatum.mk.injEq] at hj hm ht ⊢
  refine ⟨?_, ?_, ?_⟩ <;> omega

lemma zeigeDatum_parseDatum (s : String) (h : istFormatJJJJMMTT s = true) :
    zeigeDatum (parseDatum s) = s := by
  obtain ⟨l⟩ := s
  unfold istFormatJJJJMMTT at h
  split at h
  case h_2 => exact absurd h (by simp)
  case h_1 j1 j2 j3 j4 b1 m1 m2 b2 t1 t2 heq =>
    simp only [Bool.and_eq_true, beq_iff_eq] at h
    obtain ⟨⟨⟨⟨⟨⟨⟨⟨⟨hj1, hj2⟩, hj3⟩, hj4⟩, hb1⟩, hm1⟩, hm2⟩, hb2⟩, ht1⟩, ht2⟩ := h
    have hdata : (String.mk l).data = l := rfl
    rw [hdata] at heq
    subst heq
    have a1 := ziffernWert_le hj1
    have a2 := ziffernWert_le hj2
    have a3 := ziffernWert_le hj3
    have a4 := ziffernWert_le hj4
    have b1' := ziffernWert_le hm1
    have b2' := ziffernWert_le hm2
    have c1 := ziffernWert_le ht1
    have c2 := ziffernWert_le ht2
    subst hb1 hb2
    simp only [parseDatum, zeigeDatum]
    apply congrArg String.mk
    simp only [List.cons.injEq, and_true]
    refine ⟨?_, ?_, ?_, ?_, trivial, ?_, ?_, trivial, ?_, ?_⟩
    · exact (ziffer_congr (by omega)).trans (ziffer_ziffernWert hj1)
    · exact (ziffer_congr (by omega)).trans (ziffer_ziffernWert hj2)
    · exact (ziffer_congr (by omega)).trans (ziffer_ziffernWert hj3)
    · exact (ziffer_congr (by omega)).trans (ziffer_ziffernWert hj4)
    · exact (ziffer_congr (by omega)).trans (ziffer_ziffernWert hm1)
    · exact (ziffer_congr (by omega)).trans (ziffer_ziffernWert hm2)
    · exact (ziffer_congr (by omega)).trans (ziffer_ziffernWert ht1)
    · exact (ziffer_congr (by omega)).trans (ziffer_ziffernWert ht2)

lemma parseDatum_le (s : String) (h : istFormatJJJJMMTT s = true) :
    (parseDatum s).jahr ≤ 9999 ∧ (parseDatum s).monat ≤ 99 ∧ (parseDatum s).tag ≤ 99 := by
  obtain ⟨l⟩ := s
  unfold istFormatJJJJMMTT at h
  split at h
  case h_2 => exact absurd h (by simp)
  case h_1 j1 j2 j3 j4 b1 m1 m2 b2 t1 t2 heq =>
    simp only [Bool.and_eq_true, beq_iff_eq] at h
    obtain ⟨⟨⟨⟨⟨⟨⟨⟨⟨hj1, hj2⟩, hj3⟩, hj4⟩, hb1⟩, hm1⟩, hm2⟩, hb2⟩, ht1⟩, ht2⟩ := h
    have hdata : (String.mk l).data = l := rfl
    rw [hdata] at heq
    subst heq
    have a1 := ziffernWert_le hj1
    have a2 := ziffernWert_le hj2
    have a3 := ziffernWert_le hj3
    have a4 := ziffernWert_le hj4
    have b1' := ziffernWert_le hm1
    have b2' := ziffernWert_le hm2
    have c1 := ziffernWert_le ht1
    have c2 := ziffernWert_le ht2
    simp only [parseDatum]
    refine ⟨?_, ?_, ?_⟩ <;> omega

lemma tageImMonat_le (j m : ℕ) : tageImMonat j m ≤ 31 := by
  rw [tageImMonat]
  split_ifs <;> simp_all

lemma zeigeDatum_ne_leer (d : Kalenderdatum) : zeigeDatum d ≠ "" := by
  intro e
  have := congrArg String.data e
  simp [zeigeDatum] at this

/-! ## Claim C6 -/

/-- C6, counterexample: on a valid input with surrounding whitespace the
validator succeeds but does not return the normalized trimmed date string as
its value — the result carries no value at all. -/
theorem validiereDatum_wert_gegenbeispiel :
    (ValidationService.validiereDatum (some " 2024-05-06") ⟨2026, 10, 12⟩).valid = true ∧
    (ValidationService.validiereDatum (some " 2024-05-06") ⟨2026, 10, 12⟩).value ≠
      some (jsTrim " 2024-05-06") := by
  constructor
  · decide
  · decide

/-- C6 (amended): the date validator succeeds exactly when the trimmed input
renders a real calendar date in `YYYY-MM-DD` form that is not after today
(local clock, midnight-truncated); on success it reports no error, but it
does not return the trimmed string — the result never carries a value. -/
theorem validiereDatum_charakterisierung (datum : Option String) (heute : Kalenderdatum) :
    ((ValidationService.validiereDatum datum heute).valid = true ↔
      ∃ s d, datum = some s ∧ s ≠ "" ∧ jsTrim s = zeigeDatum d ∧
        d.jahr ≤ 9999 ∧ 1 ≤ d.monat ∧ d.monat ≤ 12 ∧ 1 ≤ d.tag ∧
        d.tag ≤ tageImMonat d.jahr d.monat ∧
        (d.jahr < heute.jahr ∨ (d.jahr = heute.jahr ∧ (d.monat < heute.monat ∨
          (d.monat = heute.monat ∧ d.tag ≤ heute.tag))))) ∧
    ((ValidationService.validiereDatum datum heute).valid = true →
      (ValidationService.validiereDatum datum heute).error = none) ∧
    (ValidationService.validiereDatum datum heute).value = none := by
  cases datum with
  | none => simp [ValidationService.validiereDatum]
  | some s =>
    simp only [ValidationService.validiereDatum]
    split_ifs with h1 h2 h3 h4 h5
    · refine ⟨iff_of_false (by simp) ?_, by simp, rfl⟩
      rintro ⟨s', d, hsome, hne, -⟩
      rw [Option.some.injEq] at hsome
      subst hsome
      exact hne h1
    · refine ⟨iff_of_false (by simp) ?_, by simp, rfl⟩
      rintro ⟨s', d, hsome, -, htrim, -⟩
      rw [Option.some.injEq] at hsome
      subst hsome
      rw [h2] at htrim
      exact zeigeDatum_ne_leer d htrim.symm
    · refine ⟨iff_of_false (by simp) ?_, by simp, rfl⟩
      rintro ⟨s', d, hsome, -, htrim, -⟩
      rw [Option.some.injEq] at hsome
      subst hsome
      rw [htrim, istFormat_zeigeDatum] at h3
      simp at h3
    · refine ⟨iff_of_false (by simp) ?_, by simp, rfl⟩
      rintro ⟨s', d, hsome, -, htrim, hj, hm1', hm2', ht1', ht2', -⟩
      rw [Option.some.injEq] at hsome
      subst hsome
      rw [htrim, parseDatum_zeigeDatum d hj (by omega)
        (le_trans ht2' (le_trans (tageImMonat_le _ _) (by norm_num)))] at h4
      rw [istEchtesDatum] at h4
      simp only [Bool.not_eq_true', Bool.and_eq_false_iff, decide_eq_false_iff_not] at h4
      omega
    · refine ⟨iff_of_false (by simp) ?_, by simp, rfl⟩
      rintro ⟨s', d, hsome, -, htrim, hj, hm1', hm2', ht1', ht2', hlex⟩
      rw [Option.some.injEq] at hsome
      subst hsome
      rw [htrim, parseDatum_zeigeDatum d hj (by omega)
        (le_trans ht2' (le_trans (tageImMonat_le _ _) (by norm_num)))] at h5
      rw [datumNach] at h5
      simp only [Bool.or_eq_true, Bool.and_eq_true, decide_eq_true_eq, beq_iff_eq] at h5
      omega
    · have hfmt : istFormatJJJJMMTT (jsTrim s) = true := by
        simpa using h3
      have hecht : istEchtesDatum (parseDatum (jsTrim s)) = true := by
        simpa using h4
      refine ⟨iff_of_true rfl ?_, fun _ => rfl, rfl⟩
      refine ⟨s, parseDatum (jsTrim s), rfl, h1, (zeigeDatum_parseDatum _ hfmt).symm,
        (parseDatum_le _ hfmt).1, ?_, ?_, ?_, ?_, ?_⟩
      all_goals {
        rw [istEchtesDatum] at hecht
        simp only [Bool.and_eq_true, decide_eq_true_eq] at hecht
        rw [datumNach] at h5
        simp only [Bool.or_eq_true, Bool.and_eq_true, decide_eq_true_eq, beq_iff_eq,
          not_or, not_and, Bool.not_eq_true] at h5
        omega
      }

/-- C6, witness: the leap-day string `2020-02-29` is accepted on clock date
2026-10-12. -/
theorem validiereDatum_charakterisierung_zeuge :
    (ValidationService.validiereDatum (some "2020-02-29") ⟨2026, 10, 12⟩).valid = true :=
  (validiereDatum_charakterisierung (some "2020-02-29") ⟨2026, 10, 12⟩).1.mpr
    ⟨"2020-02-29", ⟨2020, 2, 29⟩, rfl, by decide, by decide, by norm_num, by norm_num,
      by norm_num, by norm_num, by decide, by norm_num⟩

/-! ## Claim C7 -/

lemma validiereRunde_valid_iff (r : JSRunde) :
    (ValidationService.validiereRunde r).valid = true ↔
      ∃ ro, r = .objekt ro ∧ ro.idFeld.isSome = true ∧ ro.dateFeld.isSome = true ∧
        ro.scoreFeld.isSome = true ∧ ro.courseRatingFeld.isSome = true ∧
        ro.slopeFeld.isSome = true ∧ ∃ q, ro.differentialFeld = some (.zahl q) := by
  cases r with
  | keinObjekt => simp [ValidationService.validiereRunde]
  | objekt ro =>
    obtain ⟨i, d, s, c, sl, df⟩ := ro
    rcases i with _ | iv <;> rcases d with _ | dv <;> rcases s with _ | sv <;>
      rcases c with _ | cv <;> rcases sl with _ | slv <;>
      rcases df with _ | dfv <;>
      first
        | (cases dfv <;> simp [ValidationService.validiereRunde])
        | simp [ValidationService.validiereRunde]

/-- C7 (confirmed): loading an array payload returns an in-order
subsequence containing exactly the entries that are objects with all six
fields present and a numeric non-`NaN` differential; an unparseable or
non-array payload yields the empty list; and the concrete payload of one
valid and one structurally incomplete round yields only the valid one. -/
theorem ladeRunden_korrekt :
    (∀ l : List JSRunde, List.Sublist (StorageService.ladeRunden (.arrayWert l)) l ∧
      (∀ r, r ∈ StorageService.ladeRunden (.arrayWert l) ↔ r ∈ l ∧
        ∃ ro, r = .objekt ro ∧ ro.idFeld.isSome = true ∧ ro.dateFeld.isSome = true ∧
          ro.scoreFeld.isSome = true ∧ ro.courseRatingFeld.isSome = true ∧
          ro.slopeFeld.isSome = true ∧ ∃ q, ro.differentialFeld = some (.zahl q))) ∧
    StorageService.ladeRunden .unlesbar = [] ∧
    StorageService.ladeRunden .keinArray = [] ∧
    StorageService.ladeRunden (.arrayWert [beispielGueltigeRunde, beispielKaputteRunde]) =
      [beispielGueltigeRunde] := by
  refine ⟨fun l => ⟨List.filter_sublist _, fun r => ?_⟩, rfl, rfl, ?_⟩
  · rw [StorageService.ladeRunden, List.mem_filter, validiereRunde_valid_iff]
  · decide

/-- C7, witness: the valid example round survives loading next to the
incomplete one. -/
theorem ladeRunden_korrekt_zeuge : beispielGueltigeRunde ∈
    StorageService.ladeRunden (.arrayWert [beispielGueltigeRunde, beispielKaputteRunde]) :=
  ((ladeRunden_korrekt.1 [beispielGueltigeRunde, beispielKaputteRunde]).2
      beispielGueltigeRunde).mpr
    ⟨by decide, ⟨some .sonst, some .sonst, some (.zahl 90), some (.zahl 72), some (.zahl 113),
      some (.zahl 18)⟩, rfl, rfl, rfl, rfl, rfl, rfl, ⟨18, rfl⟩⟩

/-! ## Claim C8 -/

/-- C8 (confirmed): when saving a list of structurally valid round records
succeeds, a subsequent load returns exactly the same records in the same
order. -/
theorem speichereRunden_ladeRunden_roundtrip (runden : List JSRunde) (quotaVoll : Bool)
    (z : SpeicherZustand)
    (hval : ∀ r ∈ runden, (ValidationService.validiereRunde r).valid = true)
    (hsucc : (StorageService.speichereRunden runden quotaVoll z).2.success = true) :
    StorageService.ladeRunden (StorageService.speichereRunden runden quotaVoll z).1 = runden := by
  cases quotaVoll with
  | true => simp [StorageService.speichereRunden] at hsucc
  | false =>
    simp only [StorageService.speichereRunden, Bool.false_eq_true, if_false,
      StorageService.ladeRunden]
    exact List.filter_eq_self.mpr hval

/-- C8, witness: the round trip on a concrete one-round list starting from
an empty store. -/
theorem speichereRunden_ladeRunden_roundtrip_zeuge :
    StorageService.ladeRunden
      (StorageService.speichereRunden [beispielGueltigeRunde] false .leer).1 =
      [beispielGueltigeRunde] :=
  speichereRunden_ladeRunden_roundtrip [beispielGueltigeRunde] false .leer
    (by decide) (by decide)

/-! ## Claim C9 -/

/-- C9 (confirmed): the refined variant's handicap computation and the
simplified variant's handicap computation agree on every list of rounds;
both return `none` exactly on the empty list and otherwise the rounded
0.96-scaled average of the best `min(8, n)` differentials of the first 20
rounds. -/
theorem berechneHandicapIndex_eq_berechneHandicap (runden : List Runde) :
    WHSService.berechneHandicapIndex runden = berechneHandicap runden := by
  by_cases h : runden.length = 0 <;>
    simp [WHSService.berechneHandicapIndex, berechneHandicap, h, Nat.lt_one_iff]

/-! ## Claim C10 -/

/-- C10 (confirmed): every non-empty list of rounds yields a numeric
handicap, and the count the average divides by — `min(8, n)` over the at
most 20 considered rounds — is at least 1, so the division is never by
zero. -/
theorem berechneHandicapIndex_nichtleer_sicher (runden : List Runde) (h : runden ≠ []) :
    (∃ q, WHSService.berechneHandicapIndex runden = some q) ∧
      1 ≤ min 8 (runden.take 20).length := by
  refine ⟨⟨_, berechneHandicapIndex_formel runden h⟩, ?_⟩
  have hp : 1 ≤ runden.length := List.length_pos.mpr h
  simp [List.length_take]
  omega

/-- C10, witness: the one-round list yields a handicap and a positive
divisor. -/
theorem berechneHandicapIndex_nichtleer_sicher_zeuge :
    (∃ q, WHSService.berechneHandicapIndex [beispielRunde 10] = some q) ∧
      1 ≤ min 8 ([beispielRunde 10].take 20).length :=
  berechneHandicapIndex_nichtleer_sicher [beispielRunde 10] (by decide)
